import Mathlib

/-!
Verification of the multi-referent toponym disambiguation engine
(src/oss-geoparser): the context clusterer, the representative context
selector and the multi-context RAG disambiguator.

Shallow embedding conventions:
* Python floats are embedded as rationals:
  similarity scores, informativeness scores and document positions.
* Python sets of strings become Finset String; Python lists become List.
* Python list.sort is stable; it is embedded as the stable insertion sort
  List.insertionSort from Mathlib with the corresponding descending key
  relation.
* The two external collaborators are oracles: the candidate retriever is a
  value of type Except String (List Candidate) (an exception or a list), and
  the reasoning service is a function from the attempt number to an outcome
  (transport exception, unparseable text, or a parsed structured record).
  The prompt text sent to the service is not modelled: the engine never
  branches on it, and the service behaviour is universally quantified.
* Word characters for the regular expressions in the informativeness score
  are modelled as ASCII alphanumerics plus the underscore.
-/

/-- Embeds dataclass LocationContext of src/parsers/xml_parser.py:
one context window where a location is mentioned. -/
structure LocationContext where
  text : String
  nearby_locations : List String
  position_in_doc : ℚ
deriving DecidableEq

/-- Embeds dataclass LocationMention of src/parsers/xml_parser.py:
a location mentioned in a document with all its contexts. -/
structure LocationMention where
  name : String
  mention_count : Nat
  contexts : List LocationContext
  document_id : String
  all_doc_locations : List String
deriving DecidableEq

/-- Embeds dataclass ContextCluster of src/clustering/context_clusterer.py. -/
structure ContextCluster where
  contexts : List LocationContext
  nearby_locations : Finset String
  support : Nat
  confidence : String
deriving DecidableEq

/-- Embeds ContextClusterer._cluster_similarity: Jaccard similarity between
a nearby set and the accumulated nearby set of a cluster. -/
def clusterSimilarity (set1 set2 : Finset String) : ℚ :=
  if set1 = ∅ ∧ set2 = ∅ then 1
  else if set1 = ∅ ∨ set2 = ∅ then 0
  else
    let inter := (set1 ∩ set2).card
    let union := (set1 ∪ set2).card
    if 0 < union then (inter : ℚ) / (union : ℚ) else 0

/-- Embeds the best-cluster search loop in ContextClusterer.cluster_contexts
(lines 79-88): walks the cluster list keeping the index of the cluster of
highest similarity that is at least the threshold and strictly above the
best seen so far (which starts at 0). -/
def bestClusterAux (threshold : ℚ) (nearby : Finset String) :
    List ContextCluster → Nat → Option Nat × ℚ → Option Nat × ℚ
  | [], _, best => best
  | c :: cs, i, best =>
    let s := clusterSimilarity nearby c.nearby_locations
    if threshold ≤ s ∧ best.2 < s then
      bestClusterAux threshold nearby cs (i + 1) (some i, s)
    else
      bestClusterAux threshold nearby cs (i + 1) best

/-- Index of the best matching cluster, if any (None embeds the Python
best_cluster is None case). -/
def bestClusterIdx (threshold : ℚ) (nearby : Finset String)
    (clusters : List ContextCluster) : Option Nat :=
  (bestClusterAux threshold nearby clusters 0 (none, 0)).1

/-- Embeds the in-place update of the best matching cluster in
ContextClusterer.cluster_contexts (lines 90-95): append the context, union
the nearby sets, increment the support. -/
def updateClusterAt (ctx : LocationContext) :
    List ContextCluster → Nat → List ContextCluster
  | [], _ => []
  | c :: cs, 0 =>
    { contexts := c.contexts ++ [ctx],
      nearby_locations := c.nearby_locations ∪ ctx.nearby_locations.toFinset,
      support := c.support + 1,
      confidence := c.confidence } :: cs
  | c :: cs, n + 1 => c :: updateClusterAt ctx cs n

/-- One iteration of the agglomerative loop of
ContextClusterer.cluster_contexts (lines 75-104): assign the context to the
best matching cluster, or start a new cluster. -/
def clusterStep (threshold : ℚ) (clusters : List ContextCluster)
    (ctx : LocationContext) : List ContextCluster :=
  match bestClusterIdx threshold ctx.nearby_locations.toFinset clusters with
  | some i => updateClusterAt ctx clusters i
  | none =>
    clusters ++ [{ contexts := [ctx],
                   nearby_locations := ctx.nearby_locations.toFinset,
                   support := 1,
                   confidence := "low" }]

/-- Embeds the confidence assignment of ContextClusterer.cluster_contexts
(lines 110-119): proportion of total contexts supported by the cluster. -/
def assignConfidence (total : Nat) (c : ContextCluster) : ContextCluster :=
  let proportion : ℚ := (c.support : ℚ) / (total : ℚ)
  { c with confidence :=
      if 6/10 ≤ proportion then "high"
      else if 3/10 ≤ proportion then "medium"
      else "low" }

/-- Embeds ContextClusterer.cluster_contexts: empty and singleton shortcuts,
then single-pass agglomerative clustering, stable sort by support descending
(Python list.sort is stable; embedded as stable insertion sort), then
confidence assignment. -/
def clusterContexts (threshold : ℚ) (mention : LocationMention) :
    List ContextCluster :=
  match mention.contexts with
  | [] => []
  | [c] =>
    [{ contexts := [c],
       nearby_locations := c.nearby_locations.toFinset,
       support := 1,
       confidence := "high" }]
  | cs =>
    let clusters := cs.foldl (clusterStep threshold) []
    let sorted := clusters.insertionSort (fun a b => b.support ≤ a.support)
    sorted.map (assignConfidence cs.length)

/-- Embeds ContextClusterer.detect_multiple_referents: more than one
cluster, and the second cluster holds at least a 0.2 proportion of the total
support. -/
def detectMultipleReferents (threshold : ℚ) (m : LocationMention) :
    Bool × List ContextCluster :=
  let clusters := clusterContexts threshold m
  match clusters with
  | c0 :: second :: rest =>
    let total : ℚ := (((c0 :: second :: rest).map ContextCluster.support).sum : ℚ)
    (decide ((1 : ℚ)/5 ≤ (second.support : ℚ) / total), clusters)
  | _ => (false, clusters)

/-- Embeds the Python built-in round (banker rounding, half to even),
used for the position bucket in select_representative_contexts. -/
def pythonRound (q : ℚ) : Int :=
  let n := ⌊q⌋
  let r := q - (n : ℚ)
  if r < 1/2 then n
  else if 1/2 < r then n + 1
  else if n % 2 = 0 then n else n + 1

/-- Word character for the regular expressions of
ContextClusterer._context_informativeness_score, modelled as ASCII
alphanumeric or underscore. -/
def isWordChar (c : Char) : Bool :=
  c.isAlphanum || c = '_'

/-- Splits a character list into its maximal runs of word characters
(the word tokens of the text). -/
def wordRunsAux : List Char → List Char → List (List Char)
  | [], [] => []
  | [], acc => [acc.reverse]
  | c :: cs, acc =>
    if isWordChar c then wordRunsAux cs (c :: acc)
    else if acc = [] then wordRunsAux cs []
    else acc.reverse :: wordRunsAux cs []

/-- The maximal word-character runs of a string. -/
def wordRuns (s : String) : List (List Char) :=
  wordRunsAux s.data []

/-- Embeds the findall of the raw pattern backslash-b digit 2-to-4
backslash-b in _context_informativeness_score: the word tokens that consist
entirely of digits and have length between 2 and 4. -/
def numericTokenCount (s : String) : Nat :=
  ((wordRuns s).filter
    (fun run => run.all Char.isDigit && 2 ≤ run.length && run.length ≤ 4)).length

/-- Embeds the findall of the capitalized-word pattern (one ASCII uppercase
letter followed by one or more ASCII lowercase letters, word-bounded) in
_context_informativeness_score: the word tokens of that exact shape. -/
def capitalizedWordCount (s : String) : Nat :=
  ((wordRuns s).filter
    (fun run =>
      match run with
      | [] => false
      | c :: rest => c.isUpper && rest.length ≥ 1 && rest.all Char.isLower)).length

/-- Embeds ContextClusterer._context_informativeness_score. -/
def contextInformativenessScore (context : LocationContext) : ℚ :=
  let score : ℚ := 0
  let score := score + (context.nearby_locations.length : ℚ) * 2
  let score := score + min ((context.text.length : ℚ) / 500) 1
  let score := score + (numericTokenCount context.text : ℚ) * (1/2)
  let score := score + min ((capitalizedWordCount context.text : ℚ) / 10) 1
  score

/-- Embeds the first selection loop of
ContextClusterer.select_representative_contexts (lines 152-161): walk the
scored contexts in order, stop once max_contexts are selected, and take a
context when its position bucket is new or fewer than half of the slots are
filled. -/
def selectPhase1 (k : Nat) :
    List (ℚ × LocationContext) → List LocationContext → List Int →
    List LocationContext × List Int
  | [], sel, used => (sel, used)
  | (_, c) :: rest, sel, used =>
    if k ≤ sel.length then (sel, used)
    else
      let bucket := pythonRound (c.position_in_doc * 10)
      if bucket ∉ used ∨ sel.length < k / 2 then
        selectPhase1 k rest (sel ++ [c]) (bucket :: used)
      else
        selectPhase1 k rest sel used

/-- Embeds the second selection loop of
ContextClusterer.select_representative_contexts (lines 164-168): fill the
remaining slots with the highest scoring contexts not yet selected. -/
def selectPhase2 (k : Nat) :
    List (ℚ × LocationContext) → List LocationContext → List LocationContext
  | [], sel => sel
  | (_, c) :: rest, sel =>
    if k ≤ sel.length then sel
    else if c ∈ sel then selectPhase2 k rest sel
    else selectPhase2 k rest (sel ++ [c])

/-- The scored context list of select_representative_contexts (lines
139-146), sorted by score descending with the stable sort. -/
def sortedScored (cluster : ContextCluster) : List (ℚ × LocationContext) :=
  (cluster.contexts.map
    (fun ctx => (contextInformativenessScore ctx, ctx))).insertionSort
      (fun a b => b.1 ≤ a.1)

/-- Embeds ContextClusterer.select_representative_contexts. -/
def selectRepresentativeContexts (cluster : ContextCluster)
    (maxContexts : Nat) : List LocationContext :=
  if cluster.contexts.length ≤ maxContexts then cluster.contexts
  else
    (selectPhase2 maxContexts (sortedScored cluster)
      (selectPhase1 maxContexts (sortedScored cluster) [] []).1).take maxContexts

/-- A knowledge-base candidate, embedding the candidate dictionaries returned
by the Neo4j interface. Only the id field is inspected by the engine control
flow (candidate matching); the remaining display fields are carried along unused
and play no role in the decisions verified here. A missing id key is the
none case. -/
structure Candidate where
  id : Option String
  title : Option String
deriving DecidableEq

/-- The structured record parsed out of a reasoning-service response:
selected_id, confidence and reasoning, each possibly absent (Python
dict.get). -/
structure LLMDecision where
  selected_id : Option String
  confidence : Option String
  reasoning : Option String
deriving DecidableEq

/-- Outcome of one reasoning-service call as observed by
MultiContextDisambiguator._disambiguate_with_llm: a transport exception
(caught as Exception), a response whose text fails JSON parsing
(json.JSONDecodeError), or a successfully parsed structured record. -/
inductive LLMResponse where
  | transportError (msg : String)
  | unparseable (msg : String)
  | parsed (d : LLMDecision)
deriving DecidableEq

/-- Embeds the optional source-location hint (only stored and echoed into
the prompt, never branched on by the engine). -/
structure SourceLoc where
  city : Option String
  state : Option String
deriving DecidableEq

/-- Embeds dataclass DisambiguationResult of
src/disambiguation/multi_context_rag.py. The nearby_locations field is
built from a Python set whose iteration order is implementation defined, so
it is embedded as the set itself. -/
structure DisambiguationResult where
  toponym : String
  selected_candidate : Option Candidate
  confidence : String
  reasoning : String
  clusters_detected : Nat
  has_multiple_referents : Bool
  all_candidates : List Candidate
  contexts_used : List String
  nearby_locations : Finset String
  source_location : Option SourceLoc
deriving DecidableEq

/-- Embeds the Python str.lower method (ASCII model): lower-case every
character. -/
def pyLower (s : String) : String :=
  ⟨s.data.map Char.toLower⟩

/-- Embeds the decision handling of _disambiguate_with_llm (lines 252-270):
read selected_id, reasoning and confidence with their dict.get defaults,
return no candidate on a null selection, override any low-confidence
selection to no candidate (precision first), otherwise look the identifier
up in the candidate list (next with default None). -/
def processDecision (d : LLMDecision) (candidates : List Candidate) :
    Option Candidate × String :=
  let reasoning := d.reasoning.getD "No reasoning provided"
  let llm_confidence := pyLower (d.confidence.getD "medium")
  match d.selected_id with
  | none => (none, reasoning)
  | some sid =>
    if llm_confidence = "low" then
      (none, "Low confidence: " ++ reasoning)
    else
      (candidates.find? (fun c => c.id = some sid), reasoning)

/-- Embeds the retry loop of _disambiguate_with_llm (max_retries = 2,
lines 216-288), with the loop unrolled: a transport exception or a parsed
record ends the loop at once; an unparseable response is retried exactly
once (with a stricter prompt, which does not alter the modelled service
oracle), and a second unparseable response yields the parse-failure
result. The Nat component instruments the embedding with the number of
service calls actually made. -/
def disambiguateWithLLM (responses : Nat → LLMResponse)
    (candidates : List Candidate) : (Option Candidate × String) × Nat :=
  match responses 0 with
  | LLMResponse.transportError msg => ((none, "LLM error: " ++ msg), 1)
  | LLMResponse.parsed d => (processDecision d candidates, 1)
  | LLMResponse.unparseable _ =>
    match responses 1 with
    | LLMResponse.transportError msg => ((none, "LLM error: " ++ msg), 2)
    | LLMResponse.parsed d => (processDecision d candidates, 2)
    | LLMResponse.unparseable msg =>
      ((none, "LLM response parsing failed: " ++ msg), 2)

/-- Embeds MultiContextDisambiguator._calculate_confidence. The num_contexts
argument is accepted and unused, exactly as in the source. -/
def calculateConfidence (cluster_confidence : String) (num_candidates : Nat)
    (num_contexts : Nat) (has_multiple_referents : Bool) : String :=
  if cluster_confidence = "high" ∧ has_multiple_referents = false
      ∧ num_candidates ≤ 5 then "high"
  else if cluster_confidence = "low" ∨ has_multiple_referents = true
      ∨ 20 < num_candidates then "low"
  else "medium"

/-- Embeds Python list indexing clusters-bracket-cluster_id: non-negative
indices are positional, negative indices count from the end, and anything
out of range raises IndexError. -/
def pythonListGet {α : Type} (l : List α) (i : Int) : Except String α :=
  let j : Int := if i < 0 then (l.length : Int) + i else i
  if 0 ≤ j then
    match l.get? j.toNat with
    | some a => Except.ok a
    | none => Except.error "IndexError: list index out of range"
  else Except.error "IndexError: list index out of range"

/-- Embeds step 2 of MultiContextDisambiguator.disambiguate (lines
106-111): when cluster_id is given and below the cluster count, index the
cluster list with it (Python semantics, so negative values index from the
end and may raise); otherwise take the head of the list if any. -/
def selectTargetCluster (clusters : List ContextCluster)
    (cluster_id : Option Int) : Except String (Option ContextCluster) :=
  match cluster_id with
  | some cid =>
    if cid < (clusters.length : Int) then
      (pythonListGet clusters cid).map some
    else Except.ok clusters.head?
  | none => Except.ok clusters.head?

/-- Embeds MultiContextDisambiguator.disambiguate. The candidate retriever
call (self.neo4j.get_candidates, line 135) is the one collaborator call not
wrapped in a try block, so its exception outcome propagates through the
Except monad; every reasoning-service outcome is absorbed by
disambiguateWithLLM. The two early returns omit source_location, which the
Python dataclass then defaults to None. -/
def disambiguate (threshold : ℚ) (maxContextsPerCluster : Nat)
    (getCandidates : Except String (List Candidate))
    (llmResponses : Nat → LLMResponse)
    (mention : LocationMention)
    (source_location : Option SourceLoc)
    (cluster_id : Option Int) : Except String DisambiguationResult :=
  match selectTargetCluster (clusterContexts threshold mention) cluster_id with
  | Except.error e => Except.error e
  | Except.ok none =>
    Except.ok
      { toponym := mention.name
        selected_candidate := none
        confidence := "low"
        reasoning := "No valid contexts found"
        clusters_detected := 0
        has_multiple_referents := false
        all_candidates := []
        contexts_used := []
        nearby_locations := ∅
        source_location := none }
  | Except.ok (some target) =>
    match getCandidates with
    | Except.error e => Except.error e
    | Except.ok candidates =>
      if candidates = [] then
        Except.ok
          { toponym := mention.name
            selected_candidate := none
            confidence := "low"
            reasoning := "No candidates found in knowledge graph"
            clusters_detected := (clusterContexts threshold mention).length
            has_multiple_referents := (detectMultipleReferents threshold mention).1
            all_candidates := []
            contexts_used := (selectRepresentativeContexts target
              maxContextsPerCluster).map LocationContext.text
            nearby_locations := target.nearby_locations
            source_location := none }
      else
        Except.ok
          { toponym := mention.name
            selected_candidate := (disambiguateWithLLM llmResponses candidates).1.1
            confidence := calculateConfidence target.confidence
              candidates.length
              ((selectRepresentativeContexts target maxContextsPerCluster).length)
              ((detectMultipleReferents threshold mention).1)
            reasoning := (disambiguateWithLLM llmResponses candidates).1.2
            clusters_detected := (clusterContexts threshold mention).length
            has_multiple_referents := (detectMultipleReferents threshold mention).1
            all_candidates := candidates
            contexts_used := (selectRepresentativeContexts target
              maxContextsPerCluster).map LocationContext.text
            nearby_locations := target.nearby_locations
            source_location := source_location }

/-! ## Invariants of the agglomerative clustering loop -/

theorem bestClusterAux_bound (t : ℚ) (nb : Finset String) :
    ∀ (cs : List ContextCluster) (i0 : Nat) (b : Option Nat × ℚ) (j : Nat),
      (bestClusterAux t nb cs i0 b).1 = some j →
      b.1 = some j ∨ (i0 ≤ j ∧ j < i0 + cs.length) := by
  intro cs
  induction cs with
  | nil => intro i0 b j h; exact Or.inl h
  | cons c cs ih =>
    intro i0 b j h
    rw [bestClusterAux] at h
    by_cases hc : t ≤ clusterSimilarity nb c.nearby_locations
        ∧ b.2 < clusterSimilarity nb c.nearby_locations
    · rw [if_pos hc] at h
      rcases ih (i0 + 1) (some i0, _) j h with h1 | h1
      · simp only [Option.some.injEq] at h1
        subst h1
        right
        simp
      · right
        constructor
        · omega
        · simpa [List.length_cons] using by omega
    · rw [if_neg hc] at h
      rcases ih (i0 + 1) b j h with h1 | h1
      · exact Or.inl h1
      · right
        constructor
        · omega
        · simpa [List.length_cons] using by omega

theorem bestClusterIdx_lt {t : ℚ} {nb : Finset String}
    {cs : List ContextCluster} {i : Nat} (h : bestClusterIdx t nb cs = some i) :
    i < cs.length := by
  rcases bestClusterAux_bound t nb cs 0 (none, 0) i h with h1 | h1
  · exact absurd h1 (by simp)
  · omega

theorem updateClusterAt_flatMap_perm (ctx : LocationContext) :
    ∀ (cs : List ContextCluster) (i : Nat), i < cs.length →
      ((updateClusterAt ctx cs i).flatMap ContextCluster.contexts).Perm
        ((cs.flatMap ContextCluster.contexts) ++ [ctx]) := by
  intro cs
  induction cs with
  | nil => intro i h; simp at h
  | cons c cs ih =>
    intro i h
    match i with
    | 0 =>
      simp only [updateClusterAt, List.flatMap_cons, List.append_assoc]
      exact (List.perm_append_comm.append_left c.contexts).trans
        (by simp [List.append_assoc])
    | n + 1 =>
      simp only [updateClusterAt, List.flatMap_cons, List.append_assoc]
      refine List.Perm.append_left c.contexts ?_
      have hn : n < cs.length := by
        simp only [List.length_cons] at h
        omega
      simpa using ih n hn

theorem clusterStep_flatMap_perm (t : ℚ) (cs : List ContextCluster)
    (ctx : LocationContext) :
    ((clusterStep t cs ctx).flatMap ContextCluster.contexts).Perm
      ((cs.flatMap ContextCluster.contexts) ++ [ctx]) := by
  rw [clusterStep]
  rcases h : bestClusterIdx t ctx.nearby_locations.toFinset cs with _ | i
  · simp
  · exact updateClusterAt_flatMap_perm ctx cs i (bestClusterIdx_lt h)

theorem foldl_clusterStep_perm (t : ℚ) :
    ∀ (l : List LocationContext) (acc : List ContextCluster),
      ((l.foldl (clusterStep t) acc).flatMap ContextCluster.contexts).Perm
        ((acc.flatMap ContextCluster.contexts) ++ l) := by
  intro l
  induction l with
  | nil => intro acc; simp
  | cons c l ih =>
    intro acc
    rw [List.foldl_cons]
    refine (ih (clusterStep t acc c)).trans ?_
    refine ((clusterStep_flatMap_perm t acc c).append_right l).trans ?_
    simp

theorem assignConfidence_contexts (n : Nat) (c : ContextCluster) :
    (assignConfidence n c).contexts = c.contexts := rfl

theorem assignConfidence_support (n : Nat) (c : ContextCluster) :
    (assignConfidence n c).support = c.support := rfl

/-- Partition invariant of cluster_contexts: the concatenation of the member
lists of the returned clusters is a permutation of the mention contexts. -/
theorem clusterContexts_flatMap_perm (t : ℚ) (m : LocationMention) :
    ((clusterContexts t m).flatMap ContextCluster.contexts).Perm m.contexts := by
  rcases h : m.contexts with _ | ⟨c, _ | ⟨d, l⟩⟩
  · simp [clusterContexts, h]
  · simp [clusterContexts, h]
  · rw [clusterContexts, h]
    have hmap : ∀ (L : List ContextCluster) (n : Nat),
        (L.map (assignConfidence n)).flatMap ContextCluster.contexts
          = L.flatMap ContextCluster.contexts := by
      intro L n
      induction L with
      | nil => rfl
      | cons x L ihL => simp [List.flatMap_cons, ihL, assignConfidence_contexts]
    rw [hmap]
    refine (List.Perm.flatMap_right ContextCluster.contexts
      (List.perm_insertionSort _ _)).trans ?_
    simpa using foldl_clusterStep_perm t (c :: d :: l) []

/-- Well-formedness of a cluster as maintained by the clustering loop: the
support counter equals the member count, and the member list is non-empty. -/
def ClusterWf (c : ContextCluster) : Prop :=
  c.support = c.contexts.length ∧ c.contexts ≠ []

theorem updateClusterAt_wf (ctx : LocationContext) :
    ∀ (cs : List ContextCluster) (i : Nat),
      (∀ c ∈ cs, ClusterWf c) → ∀ c ∈ updateClusterAt ctx cs i, ClusterWf c := by
  intro cs
  induction cs with
  | nil => intro i h c hc; simp [updateClusterAt] at hc
  | cons x cs ih =>
    intro i h c hc
    cases i with
    | zero =>
      rw [updateClusterAt, List.mem_cons] at hc
      rcases hc with hc | hc
      · have hx := h x (by simp)
        subst hc
        constructor
        · simp [hx.1]
        · simp
      · exact h c (List.mem_cons_of_mem x hc)
    | succ n =>
      rw [updateClusterAt, List.mem_cons] at hc
      rcases hc with hc | hc
      · subst hc; exact h c (by simp)
      · exact ih n (fun y hy => h y (List.mem_cons_of_mem x hy)) c hc

theorem clusterStep_wf (t : ℚ) (cs : List ContextCluster)
    (ctx : LocationContext) (h : ∀ c ∈ cs, ClusterWf c) :
    ∀ c ∈ clusterStep t cs ctx, ClusterWf c := by
  intro c hc
  rw [clusterStep] at hc
  rcases hb : bestClusterIdx t ctx.nearby_locations.toFinset cs with _ | i
  · rw [hb] at hc
    rcases List.mem_append.1 hc with hc | hc
    · exact h c hc
    · simp only [List.mem_singleton] at hc
      subst hc
      exact ⟨rfl, by simp⟩
  · rw [hb] at hc
    exact updateClusterAt_wf ctx cs i h c hc

theorem foldl_clusterStep_wf (t : ℚ) :
    ∀ (l : List LocationContext) (acc : List ContextCluster),
      (∀ c ∈ acc, ClusterWf c) →
      ∀ c ∈ l.foldl (clusterStep t) acc, ClusterWf c := by
  intro l
  induction l with
  | nil => intro acc h; simpa using h
  | cons x l ih =>
    intro acc h
    rw [List.foldl_cons]
    exact ih (clusterStep t acc x) (clusterStep_wf t acc x h)

/-- Every cluster returned by cluster_contexts is well-formed. -/
theorem clusterContexts_wf (t : ℚ) (m : LocationMention) :
    ∀ c ∈ clusterContexts t m, ClusterWf c := by
  rcases h : m.contexts with _ | ⟨c0, _ | ⟨d, l⟩⟩
  · simp [clusterContexts, h]
  · intro c hc
    simp only [clusterContexts, h, List.mem_singleton] at hc
    subst hc
    exact ⟨rfl, by simp⟩
  · intro c hc
    rw [clusterContexts, h] at hc
    rcases List.mem_map.1 hc with ⟨c1, hc1, hc2⟩
    have hmem : c1 ∈ (c0 :: d :: l).foldl (clusterStep t) [] := by
      have := (List.perm_insertionSort
        (fun a b : ContextCluster => b.support ≤ a.support) _).mem_iff.1 hc1
      exact this
    have hwf := foldl_clusterStep_wf t (c0 :: d :: l) [] (by simp) c1 hmem
    subst hc2
    exact ⟨by simpa [assignConfidence_support, assignConfidence_contexts] using hwf.1,
      by simpa [assignConfidence_contexts] using hwf.2⟩

/-- The supports of the returned clusters sum to the number of contexts of
the mention. -/
theorem clusterContexts_sum_support (t : ℚ) (m : LocationMention) :
    ((clusterContexts t m).map ContextCluster.support).sum = m.contexts.length := by
  have h1 : ((clusterContexts t m).map ContextCluster.support)
      = ((clusterContexts t m).map (List.length ∘ ContextCluster.contexts)) :=
    List.map_congr_left (fun c hc => (clusterContexts_wf t m c hc).1)
  rw [h1, ← List.length_flatMap]
  exact (clusterContexts_flatMap_perm t m).length_eq

/-- cluster_contexts of a mention with contexts is non-empty. -/
theorem clusterContexts_ne_nil (t : ℚ) (m : LocationMention)
    (h : m.contexts ≠ []) : clusterContexts t m ≠ [] := by
  intro hnil
  have := (clusterContexts_flatMap_perm t m).symm
  rw [hnil] at this
  simp only [List.flatMap_nil] at this
  exact h (List.Perm.eq_nil this)

theorem ratFifth (s n : Nat) (hn : 0 < n) :
    ((1 : ℚ)/5 ≤ (s : ℚ) / (n : ℚ)) ↔ n ≤ 5 * s := by
  rw [div_le_div_iff (by norm_num) (by exact_mod_cast hn)]
  rw [one_mul, mul_comm]
  exact_mod_cast Iff.rfl

/-- Characterization of detect_multiple_referents: true exactly when at
least two clusters exist and the second cluster holds at least one fifth of
the occurrences of the mention. -/
theorem detectMultipleReferents_iff (t : ℚ) (m : LocationMention) :
    (detectMultipleReferents t m).1 = true ↔
      ∃ c0 c1 rest, clusterContexts t m = c0 :: c1 :: rest
        ∧ m.contexts.length ≤ 5 * c1.support := by
  rcases hcl : clusterContexts t m with _ | ⟨c0, cl1⟩
  · simp only [detectMultipleReferents, hcl, Bool.false_eq_true, false_iff]
    rintro ⟨c0, c1, rest, heq, _⟩
    exact List.noConfusion heq
  · rcases cl1 with _ | ⟨c1, rest⟩
    · simp only [detectMultipleReferents, hcl, Bool.false_eq_true, false_iff]
      rintro ⟨c0x, c1x, restx, heq, _⟩
      simp at heq
    have hpos : 0 < m.contexts.length := by
      have hsum := clusterContexts_sum_support t m
      have hwf := clusterContexts_wf t m c0 (by rw [hcl]; simp)
      have hc0 : 1 ≤ c0.support := by
        rcases hwf with ⟨hs, hne⟩
        rw [hs]
        exact List.length_pos.2 hne
      rw [hcl] at hsum
      simp only [List.map_cons, List.sum_cons] at hsum
      omega
    have hsum : (List.map ContextCluster.support (c0 :: c1 :: rest)).sum
        = m.contexts.length := by
      rw [← hcl]
      exact clusterContexts_sum_support t m
    simp only [detectMultipleReferents, hcl, decide_eq_true_eq]
    rw [hsum, ratFifth _ _ hpos]
    constructor
    · intro hle
      exact ⟨c0, c1, rest, rfl, hle⟩
    · rintro ⟨c0x, c1x, restx, heq, hle⟩
      simp only [List.cons.injEq] at heq
      obtain ⟨h1, h2, h3⟩ := heq
      rw [← h2] at hle
      exact hle

/-! ## Invariants of the representative context selection loops -/

theorem selectPhase1_spec (k : Nat) :
    ∀ (rest : List (ℚ × LocationContext)) (sel : List LocationContext)
      (used : List Int),
      ∃ tl, (selectPhase1 k rest sel used).1 = sel ++ tl
        ∧ tl.Sublist (rest.map Prod.snd) := by
  intro rest
  induction rest with
  | nil => intro sel used; exact ⟨[], by simp [selectPhase1], by simp⟩
  | cons p rest ih =>
    intro sel used
    rcases p with ⟨s, c⟩
    rw [selectPhase1]
    by_cases hstop : k ≤ sel.length
    · rw [if_pos hstop]
      exact ⟨[], by simp, by simp⟩
    · rw [if_neg hstop]
      by_cases htake : pythonRound (c.position_in_doc * 10) ∉ used
          ∨ sel.length < k / 2
      · rw [if_pos htake]
        rcases ih (sel ++ [c]) (pythonRound (c.position_in_doc * 10) :: used)
          with ⟨tl, h1, h2⟩
        refine ⟨c :: tl, ?_, ?_⟩
        · rw [h1]; simp
        · simpa using List.Sublist.cons₂ c h2
      · rw [if_neg htake]
        rcases ih sel used with ⟨tl, h1, h2⟩
        exact ⟨tl, h1, h2.trans (List.sublist_cons_self c _)⟩

theorem selectPhase1_length (k : Nat) :
    ∀ (rest : List (ℚ × LocationContext)) (sel : List LocationContext)
      (used : List Int),
      (selectPhase1 k rest sel used).1.length ≤ max sel.length k := by
  intro rest
  induction rest with
  | nil => intro sel used; simp [selectPhase1]
  | cons p rest ih =>
    intro sel used
    rcases p with ⟨s, c⟩
    rw [selectPhase1]
    by_cases hstop : k ≤ sel.length
    · rw [if_pos hstop]; simp
    · rw [if_neg hstop]
      by_cases htake : pythonRound (c.position_in_doc * 10) ∉ used
          ∨ sel.length < k / 2
      · rw [if_pos htake]
        refine (ih _ _).trans ?_
        simp only [List.length_append, List.length_singleton]
        omega
      · rw [if_neg htake]
        exact ih sel used

theorem selectPhase2_spec (k : Nat) :
    ∀ (rest : List (ℚ × LocationContext)) (sel : List LocationContext),
      ∃ tl, selectPhase2 k rest sel = sel ++ tl
        ∧ tl.Sublist (rest.map Prod.snd) := by
  intro rest
  induction rest with
  | nil => intro sel; exact ⟨[], by simp [selectPhase2], by simp⟩
  | cons p rest ih =>
    intro sel
    rcases p with ⟨s, c⟩
    rw [selectPhase2]
    by_cases hstop : k ≤ sel.length
    · rw [if_pos hstop]
      exact ⟨[], by simp, by simp⟩
    · rw [if_neg hstop]
      by_cases hmem : c ∈ sel
      · rw [if_pos hmem]
        rcases ih sel with ⟨tl, h1, h2⟩
        exact ⟨tl, h1, h2.trans (List.sublist_cons_self c _)⟩
      · rw [if_neg hmem]
        rcases ih (sel ++ [c]) with ⟨tl, h1, h2⟩
        refine ⟨c :: tl, ?_, ?_⟩
        · rw [h1]; simp
        · simpa using List.Sublist.cons₂ c h2

theorem selectPhase2_length (k : Nat) :
    ∀ (rest : List (ℚ × LocationContext)) (sel : List LocationContext),
      (selectPhase2 k rest sel).length ≤ max sel.length k := by
  intro rest
  induction rest with
  | nil => intro sel; simp [selectPhase2]
  | cons p rest ih =>
    intro sel
    rcases p with ⟨s, c⟩
    rw [selectPhase2]
    by_cases hstop : k ≤ sel.length
    · rw [if_pos hstop]; simp
    · rw [if_neg hstop]
      by_cases hmem : c ∈ sel
      · rw [if_pos hmem]
        exact ih sel
      · rw [if_neg hmem]
        refine (ih _).trans ?_
        simp only [List.length_append, List.length_singleton]
        omega

theorem selectPhase2_nodup (k : Nat) :
    ∀ (rest : List (ℚ × LocationContext)) (sel : List LocationContext),
      sel.Nodup → (selectPhase2 k rest sel).Nodup := by
  intro rest
  induction rest with
  | nil => intro sel h; simpa [selectPhase2] using h
  | cons p rest ih =>
    intro sel h
    rcases p with ⟨s, c⟩
    rw [selectPhase2]
    by_cases hstop : k ≤ sel.length
    · rw [if_pos hstop]; exact h
    · rw [if_neg hstop]
      by_cases hmem : c ∈ sel
      · rw [if_pos hmem]
        exact ih sel h
      · rw [if_neg hmem]
        refine ih (sel ++ [c]) ?_
        simp [List.nodup_append, h, hmem]

theorem selectPhase2_fill (k : Nat) :
    ∀ (rest : List (ℚ × LocationContext)) (sel : List LocationContext),
      sel.length ≤ k →
      (selectPhase2 k rest sel).length = k
        ∨ ∀ p ∈ rest, p.2 ∈ selectPhase2 k rest sel := by
  intro rest
  induction rest with
  | nil => intro sel h; right; simp
  | cons p rest ih =>
    intro sel h
    rcases p with ⟨s, c⟩
    rw [selectPhase2]
    by_cases hstop : k ≤ sel.length
    · rw [if_pos hstop]
      left
      omega
    · rw [if_neg hstop]
      by_cases hmem : c ∈ sel
      · rw [if_pos hmem]
        rcases ih sel h with h1 | h1
        · exact Or.inl h1
        · right
          intro q hq
          rcases List.mem_cons.1 hq with hq | hq
          · subst hq
            rcases selectPhase2_spec k rest sel with ⟨tl, h2, _⟩
            rw [h2]
            exact List.mem_append_left tl hmem
          · exact h1 q hq
      · rw [if_neg hmem]
        rcases ih (sel ++ [c]) (by simp; omega) with h1 | h1
        · exact Or.inl h1
        · right
          intro q hq
          rcases List.mem_cons.1 hq with hq | hq
          · subst hq
            rcases selectPhase2_spec k rest (sel ++ [c]) with ⟨tl, h2, _⟩
            rw [h2]
            exact List.mem_append_left tl (by simp)
          · exact h1 q hq

theorem selectCore_spec (k : Nat) (sorted : List (ℚ × LocationContext))
    (hnd : (sorted.map Prod.snd).Nodup) (hk : k < sorted.length) :
    ((selectPhase2 k sorted (selectPhase1 k sorted [] []).1).take k).length = k
    ∧ ((selectPhase2 k sorted (selectPhase1 k sorted [] []).1).take k).Nodup := by
  obtain ⟨t1, h1, h1s⟩ := selectPhase1_spec k sorted [] []
  have hnd1 : (selectPhase1 k sorted [] []).1.Nodup := by
    rw [h1, List.nil_append]
    exact h1s.nodup hnd
  have hlen1 : (selectPhase1 k sorted [] []).1.length ≤ k := by
    have := selectPhase1_length k sorted [] []
    simpa using this
  have hnd2 : (selectPhase2 k sorted (selectPhase1 k sorted [] []).1).Nodup :=
    selectPhase2_nodup k sorted _ hnd1
  have hlen2 : (selectPhase2 k sorted (selectPhase1 k sorted [] []).1).length ≤ k := by
    refine (selectPhase2_length k sorted _).trans ?_
    omega
  have hlen2eq : (selectPhase2 k sorted (selectPhase1 k sorted [] []).1).length = k := by
    rcases selectPhase2_fill k sorted _ hlen1 with h | h
    · exact h
    · exfalso
      have hsub : (sorted.map Prod.snd)
          ⊆ selectPhase2 k sorted (selectPhase1 k sorted [] []).1 := by
        intro x hx
        rcases List.mem_map.1 hx with ⟨p, hp, hpx⟩
        rw [← hpx]
        exact h p hp
      have hle := (List.subperm_of_subset hnd hsub).length_le
      rw [List.length_map] at hle
      omega
  constructor
  · rw [List.length_take, hlen2eq]
    omega
  · exact (List.take_sublist k _).nodup hnd2

/-- Guarantees of select_representative_contexts: never more than
max_contexts occurrences; and when the cluster members are pairwise
distinct, exactly min(max_contexts, cluster size) occurrences without
duplicates. -/
theorem selectRepresentativeContexts_spec (cluster : ContextCluster)
    (k : Nat) :
    (selectRepresentativeContexts cluster k).length ≤ k
    ∧ (cluster.contexts.length ≤ k →
        selectRepresentativeContexts cluster k = cluster.contexts)
    ∧ (cluster.contexts.Nodup →
        (selectRepresentativeContexts cluster k).length
            = min k cluster.contexts.length
          ∧ (selectRepresentativeContexts cluster k).Nodup) := by
  by_cases hle : cluster.contexts.length ≤ k
  · rw [selectRepresentativeContexts, if_pos hle]
    refine ⟨by omega, fun _ => rfl, fun hnd => ⟨by omega, hnd⟩⟩
  · rw [selectRepresentativeContexts, if_neg hle]
    have hperm : ((sortedScored cluster).map Prod.snd).Perm cluster.contexts := by
      refine ((List.perm_insertionSort _ _).map Prod.snd).trans ?_
      rw [List.map_map]
      simp [Function.comp_def]
    have hslen : (sortedScored cluster).length = cluster.contexts.length := by
      have h1 := hperm.length_eq
      rwa [List.length_map] at h1
    have hk : k < (sortedScored cluster).length := by omega
    constructor
    · have := (List.length_take k
        (selectPhase2 k (sortedScored cluster)
          (selectPhase1 k (sortedScored cluster) [] []).1))
      omega
    constructor
    · intro h; omega
    · intro hnd
      have hnds : ((sortedScored cluster).map Prod.snd).Nodup :=
        hperm.nodup_iff.2 hnd
      obtain ⟨hlen, hnodup⟩ := selectCore_spec k (sortedScored cluster) hnds hk
      exact ⟨by omega, hnodup⟩

/-! ## Properties of the disambiguation orchestrator -/

theorem processDecision_low (d : LLMDecision) (cands : List Candidate)
    (h : d.confidence = some "low") : (processDecision d cands).1 = none := by
  rw [processDecision, h]
  rcases d.selected_id with _ | sid
  · rfl
  · rfl

theorem disambiguateWithLLM_low (llm : Nat → LLMResponse)
    (cands : List Candidate)
    (h : ∀ n d, llm n = LLMResponse.parsed d → d.confidence = some "low") :
    (disambiguateWithLLM llm cands).1.1 = none := by
  rw [disambiguateWithLLM]
  rcases h0 : llm 0 with m0 | m0 | d0
  · rfl
  · rcases h1 : llm 1 with m1 | m1 | d1
    · rfl
    · rfl
    · exact processDecision_low d1 cands (h 1 d1 h1)
  · exact processDecision_low d0 cands (h 0 d0 h0)

theorem calculateConfidence_cases (cc : String) (ncand ncontext : Nat)
    (hm : Bool) :
    calculateConfidence cc ncand ncontext hm = "high"
      ∨ calculateConfidence cc ncand ncontext hm = "medium"
      ∨ calculateConfidence cc ncand ncontext hm = "low" := by
  rw [calculateConfidence]
  split_ifs with h1 h2
  · exact Or.inl rfl
  · exact Or.inr (Or.inr rfl)
  · exact Or.inr (Or.inl rfl)

/-- Every successful run of disambiguate with a reasoning service whose
parsed responses all report low confidence selects no candidate. -/
theorem disambiguate_low_selected_none (t : ℚ) (k : Nat)
    (g : Except String (List Candidate)) (llm : Nat → LLMResponse)
    (m : LocationMention) (src : Option SourceLoc) (cid : Option Int)
    (r : DisambiguationResult)
    (h : ∀ n d, llm n = LLMResponse.parsed d → d.confidence = some "low")
    (hok : disambiguate t k g llm m src cid = Except.ok r) :
    r.selected_candidate = none := by
  rw [disambiguate] at hok
  split at hok
  · exact absurd hok (by simp)
  · rcases hok with ⟨⟩
    rfl
  · split at hok
    · exact absurd hok (by simp)
    · split at hok
      · rcases hok with ⟨⟩
        rfl
      · rcases hok with ⟨⟩
        exact disambiguateWithLLM_low llm _ h

/-- With a successful retriever and default cluster selection, disambiguate
always returns a result, for every reasoning-service behaviour. -/
theorem disambiguate_ok_total (t : ℚ) (k : Nat) (cands : List Candidate)
    (llm : Nat → LLMResponse) (m : LocationMention) (src : Option SourceLoc) :
    ∃ r, disambiguate t k (Except.ok cands) llm m src none = Except.ok r := by
  rw [disambiguate]
  have hsel : selectTargetCluster (clusterContexts t m) none
      = Except.ok (clusterContexts t m).head? := rfl
  rw [hsel]
  rcases (clusterContexts t m).head? with _ | target
  · exact ⟨_, rfl⟩
  · by_cases hc : cands = []
    · simp only [if_pos hc]
      exact ⟨_, rfl⟩
    · simp only [if_neg hc]
      exact ⟨_, rfl⟩

/-- A reasoning service that is unparseable on every attempt: the engine
makes exactly two calls, selects nothing, reports the parse failure in the
reasoning, and still returns a result whose confidence is one of the three
cluster-derived labels. -/
theorem disambiguate_unparseable (t : ℚ) (k : Nat) (cands : List Candidate)
    (msgs : Nat → String) (m : LocationMention) (src : Option SourceLoc)
    (hm : m.contexts ≠ []) (hc : cands ≠ []) :
    ∃ r, disambiguate t k (Except.ok cands)
        (fun n => LLMResponse.unparseable (msgs n)) m src none = Except.ok r
      ∧ r.selected_candidate = none
      ∧ r.reasoning = "LLM response parsing failed: " ++ msgs 1
      ∧ (r.confidence = "high" ∨ r.confidence = "medium" ∨ r.confidence = "low")
      ∧ (disambiguateWithLLM (fun n => LLMResponse.unparseable (msgs n)) cands).2
          = 2 := by
  obtain ⟨target, rest, hcl⟩ :
      ∃ target rest, clusterContexts t m = target :: rest := by
    rcases hclx : clusterContexts t m with _ | ⟨a, l⟩
    · exact absurd hclx (clusterContexts_ne_nil t m hm)
    · exact ⟨a, l, rfl⟩
  rw [disambiguate]
  have hsel : selectTargetCluster (clusterContexts t m) none
      = Except.ok (some target) := by
    have h1 : selectTargetCluster (clusterContexts t m) none
        = Except.ok (clusterContexts t m).head? := rfl
    rw [h1, hcl]
    rfl
  rw [hsel]
  simp only [if_neg hc]
  refine ⟨_, rfl, rfl, rfl, ?_, rfl⟩
  dsimp only
  exact calculateConfidence_cases _ _ _ _

/-! ## The informativeness formula as worded by the specification -/

/-- The count of numeric tokens of a text as the specification words it
(count_of_numeric_tokens): every all-digit word token, with no length
restriction. Written from the words of the spec for comparison against
numericTokenCount, which embeds the actual 2-to-4-digit pattern of the
source. -/
def specNumericTokenCount (s : String) : Nat :=
  ((wordRuns s).filter (fun run => run.length ≥ 1 && run.all Char.isDigit)).length

/-- The informativeness score as the specification words it: 2.0 times the
size of the nearby set, plus the capped length term, plus 0.5 times the
count of numeric tokens, plus the capped capitalized-word term. Written
from the words of the spec for comparison against
contextInformativenessScore. -/
def specInformativenessScore (context : LocationContext) : ℚ :=
  2 * (context.nearby_locations.toFinset.card : ℚ)
    + min ((context.text.length : ℚ) / 500) 1
    + (1/2) * (specNumericTokenCount context.text : ℚ)
    + min ((capitalizedWordCount context.text : ℚ) / 10) 1

/-! ## Concrete inputs for the scenario checks -/

/-- An occurrence of the London scenario with the Canadian nearby set. -/
def ontarioCtx (t : String) (p : ℚ) : LocationContext :=
  { text := t, nearby_locations := ["Ontario", "Canada"], position_in_doc := p }

/-- The occurrence of the London scenario with the English nearby set. -/
def englandCtx : LocationContext :=
  { text := "c5", nearby_locations := ["England", "Thames"], position_in_doc := 1 }

/-- Scenario A of the specification: the mention London with five
occurrences, four sharing the nearby set Ontario-Canada and one with the
nearby set England-Thames. -/
def londonMention : LocationMention :=
  { name := "London", mention_count := 5,
    contexts := [ontarioCtx "c1" 0, ontarioCtx "c2" (1/4),
      ontarioCtx "c3" (1/2), ontarioCtx "c4" (3/4), englandCtx],
    document_id := "doc1", all_doc_locations := [] }

/-- The single occurrence of the one-occurrence mention. -/
def reginaCtx : LocationContext :=
  { text := "near Regina", nearby_locations := ["Moose Jaw"],
    position_in_doc := 0 }

/-- A mention with exactly one occurrence. -/
def simpleMention : LocationMention :=
  { name := "Regina", mention_count := 1, contexts := [reginaCtx],
    document_id := "doc2", all_doc_locations := [] }

/-- A knowledge-base candidate used in the concrete runs. -/
def candA : Candidate :=
  { id := some "c1", title := some "London ON" }

/-- An occurrence with empty text and empty nearby set. -/
def blankCtx : LocationContext :=
  { text := "", nearby_locations := [], position_in_doc := 0 }

/-- A cluster whose member list repeats one occurrence four times. -/
def dupCluster : ContextCluster :=
  { contexts := [blankCtx, blankCtx, blankCtx, blankCtx],
    nearby_locations := ∅, support := 4, confidence := "low" }

/-- A cluster with four pairwise distinct occurrences. -/
def distinctCluster : ContextCluster :=
  { contexts := [ontarioCtx "c1" 0, ontarioCtx "c2" (1/4),
      ontarioCtx "c3" (1/2), englandCtx],
    nearby_locations := ∅, support := 4, confidence := "low" }

/-- A reasoning service that always answers with a parsed record of low
confidence naming a valid candidate. -/
def llmLow : Nat → LLMResponse := fun _ =>
  LLMResponse.parsed
    { selected_id := some "c1", confidence := some "low",
      reasoning := some "plausible but uncertain" }

/-- A parsed decision of high confidence naming an identifier absent from
the candidate list, with empty reasoning text. -/
def mismatchDecision : LLMDecision :=
  { selected_id := some "X", confidence := some "high", reasoning := some "" }

/-- A parsed decision of medium confidence naming an absent identifier. -/
def mismatchDecisionMed : LLMDecision :=
  { selected_id := some "X", confidence := some "medium",
    reasoning := some "the context mentions Canada" }

/-- A candidate whose identifier differs from the one the mismatch
decisions name. -/
def candY : Candidate :=
  { id := some "Y", title := some "Yorkton" }

/-- The occurrence used for the informativeness counterexample: its text is
the single digit 7, a numeric token that the 2-to-4-digit pattern of the
source does not count. -/
def digitCtx : LocationContext :=
  { text := "7", nearby_locations := [], position_in_doc := 0 }

/-- The occurrence used for the informativeness witness. -/
def richCtx : LocationContext :=
  { text := "Visited Moose Jaw in 1885 near 12 Main",
    nearby_locations := ["Moose Jaw", "Regina"], position_in_doc := 1/2 }

/-! ## The claims -/

/-- Claim C1: for every reasoning-service response that parses as a structured
record and reports confidence low, the disambiguation result selects no
candidate, regardless of which (possibly valid) selected_id the response
names. -/
theorem claim_C1 (t : ℚ) (k : Nat) (g : Except String (List Candidate))
    (llm : Nat → LLMResponse) (m : LocationMention) (src : Option SourceLoc)
    (cid : Option Int) (r : DisambiguationResult)
    (hlow : ∀ n d, llm n = LLMResponse.parsed d → d.confidence = some "low")
    (hok : disambiguate t k g llm m src cid = Except.ok r) :
    r.selected_candidate = none :=
  disambiguate_low_selected_none t k g llm m src cid r hlow hok

unseal Rat.add Rat.mul Rat.inv Rat.sub in
theorem claim_C1_witness :
    ((disambiguate (3/10) 3 (Except.ok [candA]) llmLow simpleMention
        none none).toOption.map DisambiguationResult.selected_candidate)
      = some none := by
  rcases hdis : disambiguate (3/10) 3 (Except.ok [candA]) llmLow
      simpleMention none none with e | r
  · exfalso
    have hko : (disambiguate (3/10) 3 (Except.ok [candA]) llmLow
        simpleMention none none).toOption.isSome = true := by decide
    rw [hdis] at hko
    exact Bool.noConfusion hko
  · have hnone : r.selected_candidate = none :=
      claim_C1 (3/10) 3 (Except.ok [candA]) llmLow simpleMention none none r
        (fun n d hd => by
          have h2 := LLMResponse.parsed.inj hd
          rw [← h2])
        hdis
    show some r.selected_candidate = some none
    rw [hnone]

/-- Claim C2, amended: when the engine reaches the reasoning step (non-empty
contexts and non-empty candidate list) and the reasoning service returns
unparseable text on every call, disambiguate makes exactly 2 call attempts
and returns a result with no selected candidate and reasoning describing
the parse failure, never an exception; its confidence is the one computed
by _calculate_confidence, one of high, medium or low (not a distinct
"error" label). -/
theorem claim_C2 (t : ℚ) (k : Nat) (cands : List Candidate)
    (msgs : Nat → String) (m : LocationMention) (src : Option SourceLoc)
    (hm : m.contexts ≠ []) (hc : cands ≠ []) :
    ∃ r, disambiguate t k (Except.ok cands)
        (fun n => LLMResponse.unparseable (msgs n)) m src none = Except.ok r
      ∧ r.selected_candidate = none
      ∧ r.reasoning = "LLM response parsing failed: " ++ msgs 1
      ∧ (r.confidence = "high" ∨ r.confidence = "medium" ∨ r.confidence = "low")
      ∧ (disambiguateWithLLM (fun n => LLMResponse.unparseable (msgs n)) cands).2
          = 2 :=
  disambiguate_unparseable t k cands msgs m src hm hc

unseal Rat.add Rat.mul Rat.inv Rat.sub in
theorem claim_C2_witness :
    ((disambiguate (3/10) 3 (Except.ok [candA])
        (fun _ => LLMResponse.unparseable "bad") simpleMention
        none none).toOption.map
          (fun r => (r.selected_candidate, r.reasoning)))
      = some (none, "LLM response parsing failed: bad")
    ∧ (disambiguateWithLLM (fun _ => LLMResponse.unparseable "bad") [candA]).2
        = 2 := by
  obtain ⟨r, hr, hsel, hreas, hconf, hcount⟩ :=
    claim_C2 (3/10) 3 [candA] (fun _ => "bad") simpleMention none
      (by decide) (by decide)
  have hr2 : disambiguate (3/10) 3 (Except.ok [candA])
      (fun _ => LLMResponse.unparseable "bad") simpleMention none none
      = Except.ok r := hr
  refine ⟨?_, hcount⟩
  rw [hr2]
  simp [Except.toOption, hsel, hreas]

unseal Rat.add Rat.mul Rat.inv Rat.sub in
theorem claim_C2_counterexample :
    ((disambiguate (3/10) 3 (Except.ok [candA])
        (fun _ => LLMResponse.unparseable "bad") simpleMention
        none none).toOption.map DisambiguationResult.confidence)
      = some "high"
    ∧ "high" ≠ "error" := by
  constructor
  · decide
  · decide

/-- Claim C3, amended: a reasoning-service failure of any kind still yields
exactly one result, but a retriever exception propagates out of
disambiguate; when the retriever returns successfully and the default
cluster selection is used, disambiguate returns exactly one result for
every mention and every reasoning-service behaviour. -/
theorem claim_C3 (t : ℚ) (k : Nat) (cands : List Candidate)
    (llm : Nat → LLMResponse) (m : LocationMention) (src : Option SourceLoc) :
    ∃ r, disambiguate t k (Except.ok cands) llm m src none = Except.ok r :=
  disambiguate_ok_total t k cands llm m src

theorem claim_C3_counterexample :
    disambiguate (3/10) 3 (Except.error "network down")
      (fun _ => LLMResponse.unparseable "bad") simpleMention none none
      = Except.error "network down" := rfl

/-- Claim C4: the clusters returned by cluster_contexts partition the occurrences
of the mention: the concatenation of the member lists of all clusters is a
permutation of the occurrence list (each occurrence in exactly one cluster,
no duplication, no omission). -/
theorem claim_C4 (t : ℚ) (m : LocationMention) :
    ((clusterContexts t m).flatMap ContextCluster.contexts).Perm m.contexts :=
  clusterContexts_flatMap_perm t m

unseal Rat.add Rat.mul Rat.inv Rat.sub in
/-- Claim C5: detect_multiple_referents returns true exactly when more than one
cluster exists and the support of the second-largest cluster is at least
20 percent of the total occurrence count; and on the London scenario
(5 occurrences, 4 with the Ontario-Canada nearby set, 1 with the
England-Thames set, threshold 0.3) there are 2 clusters with supports 4 and
1, the largest of confidence high, and multiple referents are detected. -/
theorem claim_C5 :
    (∀ (t : ℚ) (m : LocationMention),
      (detectMultipleReferents t m).1 = true ↔
        ∃ c0 c1 rest, clusterContexts t m = c0 :: c1 :: rest
          ∧ m.contexts.length ≤ 5 * c1.support)
    ∧ (clusterContexts (3/10) londonMention).map
        (fun c => (c.support, c.confidence)) = [(4, "high"), (1, "low")]
    ∧ (detectMultipleReferents (3/10) londonMention).1 = true := by
  refine ⟨detectMultipleReferents_iff, ?_, ?_⟩
  · decide
  · decide

/-- Claim C6, amended: select_representative_contexts never returns more than
max_contexts occurrences; and whenever the cluster members are pairwise
distinct it returns exactly min(max_contexts, cluster size) occurrences
with no duplicates. (With duplicated members the second guarantee fails:
see the counterexample.) -/
theorem claim_C6 (cluster : ContextCluster) (k : Nat) (hk : 1 ≤ k) :
    (selectRepresentativeContexts cluster k).length ≤ k
    ∧ (cluster.contexts.Nodup →
        (selectRepresentativeContexts cluster k).length
            = min k cluster.contexts.length
          ∧ (selectRepresentativeContexts cluster k).Nodup) := by
  obtain ⟨h1, h2, h3⟩ := selectRepresentativeContexts_spec cluster k
  exact ⟨h1, h3⟩

unseal Rat.add Rat.mul Rat.inv Rat.sub in
theorem claim_C6_counterexample :
    (selectRepresentativeContexts dupCluster 3).length = 1
    ∧ (selectRepresentativeContexts dupCluster 3).length
        ≠ min 3 dupCluster.contexts.length := by
  constructor
  · decide
  · decide

unseal Rat.add Rat.mul Rat.inv Rat.sub in
theorem claim_C6_witness :
    (selectRepresentativeContexts distinctCluster 3).length
        = min 3 distinctCluster.contexts.length
      ∧ (selectRepresentativeContexts distinctCluster 3).Nodup :=
  (claim_C6 distinctCluster 3 (by norm_num)).2 (by decide)

/-- Claim C7, amended: a structurally valid response whose non-null selected_id
has confidence medium or high but matches no candidate yields no selected
candidate, and the reasoning returned is the unchanged reasoning text of
the service response (the code does not annotate it with the mismatch). -/
theorem claim_C7 (d : LLMDecision) (cands : List Candidate) (sid : String)
    (hsel : d.selected_id = some sid)
    (hconf : d.confidence = some "medium" ∨ d.confidence = some "high")
    (hmiss : ∀ c ∈ cands, c.id ≠ some sid) :
    processDecision d cands
      = (none, d.reasoning.getD "No reasoning provided") := by
  have hfind : cands.find? (fun c => c.id = some sid) = none := by
    rw [List.find?_eq_none]
    intro c hc
    simpa using hmiss c hc
  rcases hconf with hconf | hconf
  · simp only [processDecision, hsel, hconf]
    rw [if_neg (by decide), hfind]
  · simp only [processDecision, hsel, hconf]
    rw [if_neg (by decide), hfind]

theorem claim_C7_counterexample :
    processDecision mismatchDecision [candY] = (none, "") := by decide

theorem claim_C7_witness :
    processDecision mismatchDecisionMed [candY]
      = (none, "the context mentions Canada") :=
  claim_C7 mismatchDecisionMed [candY] "X" rfl (Or.inl rfl) (by decide)

/-- Claim C8, amended: for every occurrence whose nearby list has no repeated
name, the informativeness score equals 2.0 times the size of the nearby
set, plus min(text_length/500, 1.0), plus 0.5 times the count of
word-delimited all-digit tokens of 2 to 4 digits (not of all numeric
tokens), plus min(count of capitalized words/10, 1.0). -/
theorem claim_C8 (ctx : LocationContext) (hnd : ctx.nearby_locations.Nodup) :
    contextInformativenessScore ctx
      = 2 * (ctx.nearby_locations.toFinset.card : ℚ)
        + min ((ctx.text.length : ℚ) / 500) 1
        + (1/2) * (numericTokenCount ctx.text : ℚ)
        + min ((capitalizedWordCount ctx.text : ℚ) / 10) 1 := by
  simp only [contextInformativenessScore]
  rw [List.toFinset_card_of_nodup hnd]
  ring

unseal Rat.add Rat.mul Rat.inv Rat.sub in
theorem claim_C8_counterexample :
    contextInformativenessScore digitCtx ≠ specInformativenessScore digitCtx := by
  decide

unseal Rat.add Rat.mul Rat.inv Rat.sub in
theorem claim_C8_witness :
    contextInformativenessScore richCtx
      = 2 * (richCtx.nearby_locations.toFinset.card : ℚ)
        + min ((richCtx.text.length : ℚ) / 500) 1
        + (1/2) * (numericTokenCount richCtx.text : ℚ)
        + min ((capitalizedWordCount richCtx.text : ℚ) / 10) 1 :=
  claim_C8 richCtx (by decide)

/-- Claim C9, amended: a missing cluster_id or one at least the cluster count
targets the head of the cluster list (the largest cluster); a cluster_id
that is a valid non-negative index targets exactly the cluster at that
index; a negative cluster_id indexes from the end of the list in the Python
style, and a negative cluster_id below minus the length raises IndexError. -/
theorem claim_C9 (cs : List ContextCluster) (cid : Int) :
    selectTargetCluster cs none = Except.ok cs.head?
    ∧ ((cs.length : Int) ≤ cid →
        selectTargetCluster cs (some cid) = Except.ok cs.head?)
    ∧ (0 ≤ cid → cid < (cs.length : Int) →
        selectTargetCluster cs (some cid) = Except.ok (cs.get? cid.toNat))
    ∧ (cid < 0 → -(cs.length : Int) ≤ cid →
        selectTargetCluster cs (some cid)
          = Except.ok (cs.get? ((cs.length : Int) + cid).toNat))
    ∧ (cid < -(cs.length : Int) →
        selectTargetCluster cs (some cid)
          = Except.error "IndexError: list index out of range") := by
  refine ⟨rfl, ?_, ?_, ?_, ?_⟩
  · intro h
    rw [selectTargetCluster, if_neg (by omega)]
  · intro h0 hlt
    have hlt2 : cid.toNat < cs.length := by omega
    rcases hget : cs.get? cid.toNat with _ | a
    · rw [List.get?_eq_none] at hget
      omega
    · simp only [selectTargetCluster, pythonListGet]
      rw [if_pos hlt, if_neg (by omega : ¬ cid < 0), if_pos h0, hget]
      rfl
  · intro hneg hge
    have hlt2 : ((cs.length : Int) + cid).toNat < cs.length := by omega
    rcases hget : cs.get? ((cs.length : Int) + cid).toNat with _ | a
    · rw [List.get?_eq_none] at hget
      omega
    · simp only [selectTargetCluster, pythonListGet]
      rw [if_pos (by omega : cid < (cs.length : Int)), if_pos hneg,
        if_pos (by omega : (0 : Int) ≤ (cs.length : Int) + cid), hget]
      rfl
  · intro h
    simp only [selectTargetCluster, pythonListGet]
    rw [if_pos (by omega : cid < (cs.length : Int)), if_pos (by omega : cid < 0),
      if_neg (by omega : ¬ (0 : Int) ≤ (cs.length : Int) + cid)]
    rfl

unseal Rat.add Rat.mul Rat.inv Rat.sub in
theorem claim_C9_witness :
    selectTargetCluster (clusterContexts (3/10) londonMention) (some (-1))
      = Except.ok ((clusterContexts (3/10) londonMention).get?
          (((clusterContexts (3/10) londonMention).length : Int) + (-1)).toNat) :=
  (claim_C9 (clusterContexts (3/10) londonMention) (-1)).2.2.2.1
    (by decide) (by decide)

unseal Rat.add Rat.mul Rat.inv Rat.sub in
theorem claim_C9_counterexample :
    ((selectTargetCluster (clusterContexts (3/10) londonMention)
        (some (-1))).toOption.map (fun o => o.map ContextCluster.support))
      = some (some 1)
    ∧ ((clusterContexts (3/10) londonMention).head?.map ContextCluster.support)
        = some 4 := by
  constructor
  · decide
  · decide

/-- Claim C10: a mention with exactly one occurrence clusters into exactly one
cluster containing that occurrence, with support 1 and confidence high. -/
theorem claim_C10 (t : ℚ) (m : LocationMention) (c : LocationContext)
    (h : m.contexts = [c]) :
    clusterContexts t m
      = [{ contexts := [c], nearby_locations := c.nearby_locations.toFinset,
           support := 1, confidence := "high" }] := by
  simp [clusterContexts, h]

theorem claim_C10_witness :
    clusterContexts (3/10) simpleMention
      = [{ contexts := [reginaCtx],
           nearby_locations := ["Moose Jaw"].toFinset,
           support := 1, confidence := "high" }] :=
  claim_C10 (3/10) simpleMention reginaCtx rfl
